import Mathlib

/-!
# Shallow embedding of the `data_validation` / `pyos_data_validation` package

This file embeds the core logic of the repository (contract inference,
contract validation, contract comparison, violation summarization) as
executable Lean definitions, and proves/refutes the frozen claims about it.

Modelling conventions:
* A pandas `DataFrame` is a finite list of named columns.  A column carries
  its dtype name (a string, as `str(series.dtype)` produces) and its cells,
  each cell being `none` (NaN / missing) or a scalar value.
* Python floats are modelled by `Rat` (the code never relies on rounding:
  every comparison made is between values produced by the same exact
  computations).  NaN propagation is modelled by `Option`: pandas
  `series.min()` on an all-missing column is NaN, and every `NaN < x`
  comparison in the source is `False`; here `colMin = none` and the
  corresponding match arm produces no issue.
* Python dicts are modelled by association lists with insert-or-update
  semantics (`dictInsert`); key lookup takes the first (unique) match.
  Python `set` values are modelled by `Finset String`; where the source
  iterates over a set (whose iteration order CPython does not specify) the
  model iterates the underlying key list, which only affects the order of
  entries inside result dictionaries, never their key-value content.
* Dynamically typed scalars that the source type-checks with `isinstance`
  (`top_k`, weight values, the arguments of `compare_contracts`) are
  modelled by small sum types (`PyVal`, `PyObj`), and `raise` is modelled
  by `Except PyError`.
-/

set_option maxRecDepth 8192

namespace DataValidation

/-- A scalar cell value of a DataFrame column: a numeric value, a string,
or a Python boolean. -/
inductive Val where
  | num (q : Rat)
  | str (s : String)
  | boolean (b : Bool)
deriving DecidableEq

/-- Python `str(v)` of a cell value.  Booleans render as `True` / `False`
(which is why inference on a boolean column yields the string set
containing `True` and `False`). -/
def Val.render : Val → String
  | .num q => toString q
  | .str s => s
  | .boolean b => if b then ("True" : String) else ("False" : String)

/-- The numeric content of a cell, used by min/max and range comparisons.
Python compares booleans as the numbers 0 and 1. -/
def Val.toNum : Val → Option Rat
  | .num q => some q
  | .str _ => none
  | .boolean b => some (if b then 1 else 0)

/-- One DataFrame column: its dtype name and its cells (`none` = missing). -/
structure Column where
  dtype : String
  values : List (Option Val)
deriving DecidableEq

/-- A pandas DataFrame: columns in order, each with a name. -/
structure DataFrame where
  cols : List (String × Column)
deriving DecidableEq

/-- Model of `pandas.api.types.is_numeric_dtype` as a predicate on dtype
names: integer, float and bool dtypes.  (pandas counts `np.bool_` among the
numeric dtypes; this is what makes boolean columns take the numeric-bounds
branch of inference.) -/
def is_numeric_dtype (d : String) : Bool :=
  ["int8", "int16", "int32", "int64", "uint8", "uint16", "uint32", "uint64",
   "int", "float16", "float32", "float64", "float", "bool"].contains d

/-- Model of `pandas.api.types.is_bool_dtype` on dtype names. -/
def is_bool_dtype (d : String) : Bool := d == "bool"

/-- Model of `pandas.api.types.is_categorical_dtype` on dtype names. -/
def is_categorical_dtype (d : String) : Bool := d == "category"

/-- `series.isna().mean()`: the fraction of missing cells, as the exact
quotient missing count / row count (`mkRat n d` equals `(n : Rat) / d`,
see `missingFrac_eq_div`).  For a zero-row column the model returns 0
(pandas returns NaN there; no claim depends on the zero-row value, and
every comparison the source makes with it is `False` either way, as it is
here with `0 > 0`). -/
def Column.missingFrac (c : Column) : Rat :=
  mkRat (c.values.countP (fun v => v.isNone)) (c.values.length)

/-- `series.notna().any()`. -/
def Column.notnaAny (c : Column) : Bool := c.values.any (fun v => v.isSome)

/-- The numeric values of the non-missing cells, in order. -/
def Column.numVals (c : Column) : List Rat :=
  c.values.filterMap (fun ov => ov.bind Val.toNum)

/-- `series.min()` on a numeric column: `none` models NaN (no non-missing
numeric cell), in which case every `<` comparison in the source is False. -/
def Column.colMin (c : Column) : Option Rat :=
  match c.numVals with
  | [] => none
  | x :: xs => some (xs.foldl min x)

/-- `series.max()` on a numeric column (`none` models NaN). -/
def Column.colMax (c : Column) : Option Rat :=
  match c.numVals with
  | [] => none
  | x :: xs => some (xs.foldl max x)

/-- `set(map(str, series.dropna().unique()))` (and equally
`set(series.dropna().unique().astype(str))`: both coerce each distinct
non-missing cell to its string form and collect the set). -/
def Column.distinctStrs (c : Column) : Finset String :=
  ((c.values.filterMap id).map Val.render).toFinset

/-- `ColumnRule` from `data_validation/types.py`: per-column expectations. -/
structure ColumnRule where
  dtype : String
  max_missing_frac : Rat := 0
  min_value : Option Rat := none
  max_value : Option Rat := none
  allowed_values : Option (Finset String) := none
deriving DecidableEq

/-- `Contract` from `data_validation/types.py`: a dict column name →
`ColumnRule` (association list, keys unique) plus a display name. -/
structure Contract where
  columns : List (String × ColumnRule)
  name : String := "contract"
deriving DecidableEq

/-- The diagnostic payloads carried in `Issue.observed` / `Issue.expected`
(dynamically typed in the source: strings, numbers or string sets). -/
inductive Payload where
  | nil
  | str (s : String)
  | num (q : Rat)
  | strset (vs : Finset String)
deriving DecidableEq

/-- `Issue` from `data_validation/types.py`. -/
structure Issue where
  kind : String
  message : String
  column : Option String := none
  observed : Payload := .nil
  expected : Payload := .nil
deriving DecidableEq

/-- `ValidationResult` from `data_validation/types.py`. -/
structure ValidationResult where
  ok : Bool
  issues : List Issue := []
deriving DecidableEq

/-- Python dict insertion `d[k] = v`: update the value in place if the key
exists (keeping its position), else append the new pair. -/
def dictInsert {α : Type} (d : List (String × α)) (k : String) (v : α) :
    List (String × α) :=
  match d with
  | [] => [(k, v)]
  | (k2, v2) :: rest =>
      if k2 = k then (k2, v) :: rest else (k2, v2) :: dictInsert rest k v

/-- Python dict lookup `d[k]` / `d.get(k)`: first matching key. -/
def dictGet? {α : Type} (d : List (String × α)) (k : String) : Option α :=
  (d.find? (fun p => p.1 == k)).map (fun p => p.2)

/-- The per-column body of the loop in
`data_validation/infer_contract.py` (lines 35-61): dtype string, exact
missing fraction, min/max only for numeric dtypes (pandas counts bool as
numeric), allowed-values set only for object/categorical/bool dtypes. -/
def inferRule (s : Column) : ColumnRule :=
  let dtype_str := s.dtype
  let missing_frac := s.missingFrac
  let min_value : Option Rat :=
    if is_numeric_dtype s.dtype then
      (if s.notnaAny then s.colMin else none) else none
  let max_value : Option Rat :=
    if is_numeric_dtype s.dtype then
      (if s.notnaAny then s.colMax else none) else none
  let allowed_values : Option (Finset String) :=
    if s.dtype == "object" || is_categorical_dtype s.dtype
        || is_bool_dtype s.dtype then
      some s.distinctStrs
    else none
  { dtype := dtype_str
    max_missing_frac := missing_frac
    min_value := min_value
    max_value := max_value
    allowed_values := allowed_values }

/-- `infer_contract` from `data_validation/infer_contract.py`: one rule per
column, keyed by column name via dict insertion. -/
def infer_contract (df : DataFrame) : Contract :=
  { columns :=
      df.cols.foldl (fun d p => dictInsert d p.1 (inferRule p.2)) []
    name := "contract" }

/-- The per-column body of `pyos_data_validation/infer_contract.py`
(lines 61-92).  It differs from `inferRule` only in the allowed-values
guard: `dtype_str in ("object", "str", "string") or s.dtype.name ==
"category" or is_bool_dtype(s)`. -/
def pyosInferRule (s : Column) : ColumnRule :=
  let dtype_str := s.dtype
  let missing_frac := s.missingFrac
  let min_value : Option Rat :=
    if is_numeric_dtype s.dtype then
      (if s.notnaAny then s.colMin else none) else none
  let max_value : Option Rat :=
    if is_numeric_dtype s.dtype then
      (if s.notnaAny then s.colMax else none) else none
  let allowed_values : Option (Finset String) :=
    if ["object", "str", "string"].contains dtype_str
        || s.dtype == "category" || is_bool_dtype s.dtype then
      some s.distinctStrs
    else none
  { dtype := dtype_str
    max_missing_frac := missing_frac
    min_value := min_value
    max_value := max_value
    allowed_values := allowed_values }

/-- `infer_contract` from `pyos_data_validation/infer_contract.py`. -/
def pyos_infer_contract (df : DataFrame) : Contract :=
  { columns :=
      df.cols.foldl (fun d p => dictInsert d p.1 (pyosInferRule p.2)) []
    name := "contract" }

/-- The dtype-normalization test of `validate_contract.py` line 102:
object/str/string dtype names are treated as one equivalence class. -/
def strLikeDtype (d : String) : Bool :=
  ["object", "str", "string"].contains d

/-- The four per-column checks of `validate_contract.py` (lines 96-155),
run for one contract column present in the DataFrame.  Each check appends
its issues in source order: dtype, missingness, range (min then max),
category. -/
def checkColumn (col : String) (rules : ColumnRule) (series : Column) :
    List Issue :=
  let observed_dtype := series.dtype
  let expected_dtype := rules.dtype
  let dtypeIssues : List Issue :=
    if strLikeDtype observed_dtype && strLikeDtype expected_dtype then []
    else if observed_dtype ≠ expected_dtype then
      [{ kind := "dtype"
         message := s!"{col}: expected {expected_dtype}, got {observed_dtype}"
         column := some col
         expected := .str expected_dtype
         observed := .str observed_dtype }]
    else []
  let missing_frac := series.missingFrac
  let missIssues : List Issue :=
    if missing_frac > rules.max_missing_frac then
      [{ kind := "missingness"
         message := s!"{col}: missing fraction exceeds limit"
         column := some col
         expected := .num rules.max_missing_frac
         observed := .num missing_frac }]
    else []
  let rangeIssues : List Issue :=
    if is_numeric_dtype series.dtype then
      (match rules.min_value, series.colMin with
       | some mv, some obs =>
           if obs < mv then
             [{ kind := "range"
                message := s!"{col}: min value below limit"
                column := some col
                expected := .num mv
                observed := .num obs }]
           else []
       | _, _ => []) ++
      (match rules.max_value, series.colMax with
       | some mv, some obs =>
           if obs > mv then
             [{ kind := "range"
                message := s!"{col}: max value exceeds limit"
                column := some col
                expected := .num mv
                observed := .num obs }]
           else []
       | _, _ => [])
    else []
  let catIssues : List Issue :=
    match rules.allowed_values with
    | some allowed =>
        let observed_vals := series.distinctStrs
        let invalid := observed_vals \ allowed
        if invalid ≠ ∅ then
          [{ kind := "category"
             message := s!"{col}: invalid values present"
             column := some col
             expected := .strset allowed
             observed := .strset observed_vals }]
        else []
    | none => []
  dtypeIssues ++ missIssues ++ rangeIssues ++ catIssues

/-- The `missing_column` issue block of `validate_contract.py` (lines
66-77): one issue for each contract column absent from the DataFrame.
The source iterates the CPython set difference (iteration order
unspecified); the model iterates contract key order. -/
def missingColumnIssues (df : DataFrame) (contract : Contract) : List Issue :=
  ((contract.columns.map Prod.fst).filter
      (fun c => !(df.cols.map Prod.fst).contains c)).map (fun col =>
    { kind := "missing_column"
      message := s!"Missing required column: {col}"
      column := some col
      expected := .str "Present"
      observed := .str "Missing" })

/-- The `extra_column` issue block of `validate_contract.py` (lines
79-87): one issue for each dataset column absent from the contract
(emitted only under `strict`). -/
def extraColumnIssues (df : DataFrame) (contract : Contract) : List Issue :=
  ((df.cols.map Prod.fst).filter
      (fun c => !(contract.columns.map Prod.fst).contains c)).map (fun col =>
    { kind := "extra_column"
      message := s!"Unexpected extra column: {col}"
      column := some col
      expected := .str "Absent"
      observed := .str "Present" })

/-- The per-column loop of `validate_contract.py` (lines 90-155): contract
columns in contract iteration order, skipping those absent from the
DataFrame (`if col not in df.columns: continue`, here folded into the
lookup), running the four checks on `df[col]`. -/
def perColumnIssues (df : DataFrame) (contract : Contract) : List Issue :=
  contract.columns.flatMap (fun p =>
    match df.cols.find? (fun q => q.1 == p.1) with
    | some q => checkColumn p.1 p.2 q.2
    | none => [])

/-- `validate_contract` from `data_validation/validate_contract.py`.
Presence issues first (contract-missing, then — when `strict` — extra
dataset columns), then the per-column checks in contract iteration
order. -/
def validate_contract (df : DataFrame) (contract : Contract)
    (strict : Bool := true) : ValidationResult :=
  let issues := missingColumnIssues df contract
    ++ (if strict then extraColumnIssues df contract else [])
    ++ perColumnIssues df contract
  { ok := issues.length == 0, issues := issues }

/-- A Python exception as `compare_contracts` / `summarize_violations`
raise it. -/
inductive PyError where
  | typeError (msg : String)
  | valueError (msg : String)
deriving DecidableEq

instance {ε α : Type} [DecidableEq ε] [DecidableEq α] : DecidableEq (Except ε α) :=
  fun a b =>
    match a, b with
    | .ok x, .ok y =>
        if h : x = y then .isTrue (congrArg Except.ok h)
        else .isFalse (fun hh => h (Except.ok.inj hh))
    | .error x, .error y =>
        if h : x = y then .isTrue (congrArg Except.error h)
        else .isFalse (fun hh => h (Except.error.inj hh))
    | .ok _, .error _ => .isFalse (fun hh => Except.noConfusion hh)
    | .error _, .ok _ => .isFalse (fun hh => Except.noConfusion hh)

/-- A dynamically typed argument of `compare_contracts`: either an actual
`Contract` instance or some other object. -/
inductive PyObj where
  | contract (c : Contract)
  | notContract (descr : String)
deriving DecidableEq

/-- `isinstance(x, Contract)`. -/
def PyObj.isContract : PyObj → Bool
  | .contract _ => true
  | .notContract _ => false

/-- Modelled from the spec: `pyos_data_validation/types.py` is not under
`src/`; the `DriftReport` shape follows spec section 3 — six fields:
added/removed column sets, dtype changes (column → (old, new)), range and
category change sets, missingness changes (column → (old, new)).  The
column → pair dicts are association lists; only their key → value content
is significant. -/
structure DriftReport where
  added_columns : Finset String := ∅
  removed_columns : Finset String := ∅
  dtype_changes : List (String × String × String) := []
  range_changes : Finset String := ∅
  category_changes : Finset String := ∅
  missingness_changes : List (String × Rat × Rat) := []
deriving DecidableEq

/-- Modelled from the spec: `has_drift` is "a derived boolean … true iff
any of the six fields is non-empty" (spec section 3; the property lives in
the absent `pyos_data_validation/types.py`). -/
def DriftReport.has_drift (r : DriftReport) : Bool :=
  decide (r.added_columns ≠ ∅) || decide (r.removed_columns ≠ ∅)
    || !r.dtype_changes.isEmpty || decide (r.range_changes ≠ ∅)
    || decide (r.category_changes ≠ ∅) || !r.missingness_changes.isEmpty

/-- The inner `validate_contract(contract)` helper of
`pyos_data_validation/compare_contracts.py` (lines 83-97), run over the
rules in dict order.  The `isinstance(rule, ColumnRule)` and
`isinstance(rule.max_missing_frac, (int, float))` guards hold by typing in
this embedding; the two value checks are translated as written. -/
def compare_validate_rules : List (String × ColumnRule) → Except PyError Unit
  | [] => .ok ()
  | (column, rule) :: rest =>
      if rule.max_missing_frac < 0 || rule.max_missing_frac > 1 then
        .error (.valueError s!"max_missing_frac for {column} must be between 0 and 1")
      else
        match rule.min_value, rule.max_value with
        | some mn, some mx =>
            if mn > mx then
              .error (.valueError s!"min_value cannot exceed max_value for {column}")
            else compare_validate_rules rest
        | _, _ => compare_validate_rules rest

/-- The diff loop of `pyos_data_validation/compare_contracts.py`
(lines 102-143).  The source iterates `columns_a & columns_b` (a set, with
iteration order CPython does not specify); the model iterates the common
columns in `contract_a` key order, which fixes only the internal order of
the result dicts, not their content. -/
def driftDiff (contract_a contract_b : Contract) : DriftReport :=
  let columns_a := (contract_a.columns.map Prod.fst).toFinset
  let columns_b := (contract_b.columns.map Prod.fst).toFinset
  let added_columns := columns_b \ columns_a
  let removed_columns := columns_a \ columns_b
  let common := (contract_a.columns.map Prod.fst).filter
    (fun c => (contract_b.columns.map Prod.fst).contains c)
  let dtype_changes := common.filterMap (fun column =>
    match dictGet? contract_a.columns column, dictGet? contract_b.columns column with
    | some rule_a, some rule_b =>
        if rule_a.dtype ≠ rule_b.dtype then
          some (column, rule_a.dtype, rule_b.dtype)
        else none
    | _, _ => none)
  let range_changes := (common.filter (fun column =>
    match dictGet? contract_a.columns column, dictGet? contract_b.columns column with
    | some rule_a, some rule_b =>
        rule_a.dtype == rule_b.dtype
          && (decide (rule_a.min_value ≠ rule_b.min_value)
              || decide (rule_a.max_value ≠ rule_b.max_value))
    | _, _ => false)).toFinset
  let category_changes := (common.filter (fun column =>
    match dictGet? contract_a.columns column, dictGet? contract_b.columns column with
    | some rule_a, some rule_b =>
        rule_a.dtype == rule_b.dtype
          && decide (rule_a.allowed_values ≠ rule_b.allowed_values)
    | _, _ => false)).toFinset
  let missingness_changes := common.filterMap (fun column =>
    match dictGet? contract_a.columns column, dictGet? contract_b.columns column with
    | some rule_a, some rule_b =>
        if rule_a.max_missing_frac ≠ rule_b.max_missing_frac then
          some (column, rule_a.max_missing_frac, rule_b.max_missing_frac)
        else none
    | _, _ => none)
  { added_columns := added_columns
    removed_columns := removed_columns
    dtype_changes := dtype_changes
    range_changes := range_changes
    category_changes := category_changes
    missingness_changes := missingness_changes }

/-- The common-column list the model iterates in place of the source's
`columns_a & columns_b` set (same elements, `contract_a` key order). -/
def commonColumns (a b : Contract) : List String :=
  (a.columns.map Prod.fst).filter (fun c => (b.columns.map Prod.fst).contains c)

/-- `compare_contracts` from `pyos_data_validation/compare_contracts.py`:
the `isinstance(…, Contract)` guard first, then rule validation of
`contract_a`, then of `contract_b`, then the diff. -/
def compare_contracts : PyObj → PyObj → Except PyError DriftReport
  | .contract contract_a, .contract contract_b => do
      compare_validate_rules contract_a.columns
      compare_validate_rules contract_b.columns
      pure (driftDiff contract_a contract_b)
  | _, _ => .error (.typeError "contract_a and contract_b must be Contract instances")

/-- A dynamically typed scalar handed to `summarize_violations` as `top_k`
or as a value of the `weights` dict. -/
inductive PyVal where
  | int (i : Int)
  | float (q : Rat)
  | str (s : String)
deriving DecidableEq

/-- `isinstance(x, int)`. -/
def PyVal.isInt : PyVal → Bool
  | .int _ => true
  | _ => false

/-- `isinstance(x, (int, float))`. -/
def PyVal.isNumeric : PyVal → Bool
  | .int _ => true
  | .float _ => true
  | .str _ => false

/-- The numeric value of a scalar (0 for the non-numeric case, which every
use site rules out beforehand). -/
def PyVal.toRat : PyVal → Rat
  | .int i => (i : Rat)
  | .float q => q
  | .str _ => 0

/-- `Summary` from `data_validation/types.py` (counts as an association
list in Counter key order). -/
structure Summary where
  ok : Bool
  top_issues : List Issue := []
  counts_by_kind : List (String × Nat) := []
deriving DecidableEq

/-- The `weights` loop of `summarize_violations` (lines 174-182): the
first entry with a non-numeric value raises ValueError, then the first
entry with a non-positive value raises ValueError. -/
def checkWeights : List (String × PyVal) → Except PyError Unit
  | [] => .ok ()
  | (kind, weight) :: rest =>
      if !weight.isNumeric then
        .error (.valueError s!"Weight for {kind} must be numeric")
      else if weight.toRat ≤ 0 then
        .error (.valueError s!"Weight for {kind} must be positive")
      else checkWeights rest

/-- `DEFAULT_WEIGHTS` from `summarize_violations.py` (lines 148-155). -/
def DEFAULT_WEIGHTS : List (String × PyVal) :=
  [("missing_column", .int 10), ("extra_column", .int 8), ("dtype", .int 7),
   ("range", .int 5), ("category", .int 5), ("missingness", .int 3)]

/-- `weights_to_use.get(issue.kind, 1)`: the resolved weight of an issue
kind, defaulting to 1 for kinds absent from the map. -/
def resolveWeight (weights_to_use : List (String × PyVal)) (kind : String) : Rat :=
  match dictGet? weights_to_use kind with
  | some w => w.toRat
  | none => 1

/-- The strict order on the column component of the sort key: the source
maps `column = None` to `(False, "")` and a defined column to
`(True, name)`, so `None` sorts before every defined column and defined
columns sort by name. -/
def columnKeyLt : Option String → Option String → Bool
  | none, some _ => true
  | some x, some y => decide (x < y)
  | _, _ => false

/-- `sort_key` of `summarize_violations` (lines 204-211) as the
corresponding "key of i ≤ key of j" test: lexicographic on
`(-weight, column key, kind)`; `-wi < -wj` is written `wj < wi`. -/
def sortKeyLe (weights_to_use : List (String × PyVal)) (i j : Issue) : Bool :=
  let wi := resolveWeight weights_to_use i.kind
  let wj := resolveWeight weights_to_use j.kind
  if wi ≠ wj then decide (wj < wi)
  else if i.column ≠ j.column then columnKeyLt i.column j.column
  else decide (i.kind ≤ j.kind)

/-- The kind list in first-occurrence order, as `collections.Counter`
iterates its keys. -/
def firstOccurrences (l : List String) : List String :=
  match l with
  | [] => []
  | k :: rest => k :: firstOccurrences (rest.filter (fun x => !(x == k)))
termination_by l.length
decreasing_by
  simp only [List.length_cons]
  exact Nat.lt_succ_of_le (List.length_filter_le _ _)

/-- `dict(Counter(issue.kind for issue in result.issues))`: every issue
tallied by kind, keys in first-occurrence order. -/
def countsByKind (issues : List Issue) : List (String × Nat) :=
  (firstOccurrences (issues.map (fun i => i.kind))).map
    (fun k => (k, issues.countP (fun i => i.kind == k)))

/-- The body of `summarize_violations` after input validation
(lines 184-222): pick the weights, short-circuit on an empty issue list,
tally counts, stable-sort by the composite key (Python `sorted` is a
stable sort; `List.mergeSort` is the stable sort of the Lean library),
and slice off the first `top_k` issues. -/
def summarizeCore (result : ValidationResult) (k : Int)
    (weights : Option (List (String × PyVal))) : Summary :=
  let weights_to_use := weights.getD DEFAULT_WEIGHTS
  if result.issues.isEmpty then
    { ok := result.ok, top_issues := [], counts_by_kind := [] }
  else
    let counts_by_kind := countsByKind result.issues
    let sorted_issues := result.issues.mergeSort (sortKeyLe weights_to_use)
    let top_issues := sorted_issues.take k.toNat
    { ok := result.ok, top_issues := top_issues, counts_by_kind := counts_by_kind }

/-- `summarize_violations` from `data_validation/summarize_violations.py`
(identical to the `pyos_data_validation` copy).  Input validation runs
first, in source order: `top_k` must be an `int` (TypeError), positive
(ValueError); each `weights` value must be numeric and positive
(ValueError).  The `isinstance(result, ValidationResult)` guard holds by
typing in this embedding. -/
def summarize_violations (result : ValidationResult) (top_k : PyVal := .int 5)
    (weights : Option (List (String × PyVal)) := none) : Except PyError Summary :=
  match top_k with
  | .int k =>
      if k ≤ 0 then .error (.valueError "top_k must be a positive integer")
      else
        match weights with
        | some ws =>
            match checkWeights ws with
            | .error e => .error e
            | .ok _ => .ok (summarizeCore result k (some ws))
        | none => .ok (summarizeCore result k none)
  | _ => .error (.typeError "top_k must be an integer")

/-! ## Spec-side definitions (claim C6)

The ranking claim describes the composite sort key in the spec's words;
the definitions below transcribe that description, to be compared with the
source-side `sortKeyLe`. -/

/-- From the claim: "the weight of a kind absent from the weights map is
1"; otherwise the weight the map assigns. -/
def specResolvedWeight (weights_map : List (String × PyVal)) (kind : String) : Rat :=
  match dictGet? weights_map kind with
  | some w => w.toRat
  | none => 1

/-- From the claim: the column component — `None` before any defined
column, defined columns alphabetical (encoded as a flag-name pair ordered
lexicographically). -/
def specColumnKey : Option String → Bool × String
  | none => (false, "")
  | some c => (true, c)

/-- Strict order on the column component: the flag first (`false` = no
column, before `true`), then the name alphabetically. -/
def specColumnPairLt (x y : Bool × String) : Bool :=
  if x.1 ≠ y.1 then !x.1 && y.1 else decide (x.2 < y.2)

/-- From the claim: ascending lexicographic comparison of the composite
key (negative resolved weight, column key, kind). -/
def specCompositeLe (weights_map : List (String × PyVal)) (i j : Issue) : Bool :=
  let wi : Rat := -(specResolvedWeight weights_map i.kind)
  let wj : Rat := -(specResolvedWeight weights_map j.kind)
  if wi ≠ wj then decide (wi < wj)
  else if specColumnKey i.column ≠ specColumnKey j.column then
    specColumnPairLt (specColumnKey i.column) (specColumnKey j.column)
  else decide (i.kind ≤ j.kind)

/-- A `weights` argument that passes the input validation of
`summarize_violations` (the claims about the ranking assume valid
weights). -/
def weightsValid : Option (List (String × PyVal)) → Prop
  | none => True
  | some ws => checkWeights ws = .ok ()

/-! ## Concrete example values used by the witnesses -/

/-- A small DataFrame with a numeric, an object and a boolean column. -/
def exDF : DataFrame :=
  ⟨[("age", ⟨"int64", [some (.num 1), some (.num 2), some (.num 3)]⟩),
    ("name", ⟨"object", [some (.str "ada"), none, some (.str "bob")]⟩),
    ("flag", ⟨"bool", [some (.boolean true), some (.boolean false)]⟩)]⟩

/-- The failing input of claim C3: `pd.DataFrame({"flag": [True, False,
True]})`. -/
def exBoolDF : DataFrame :=
  ⟨[("flag", ⟨"bool", [some (.boolean true), some (.boolean false),
    some (.boolean true)]⟩)]⟩

/-- `Contract(columns={"age": ColumnRule(dtype="int")})`. -/
def exContractAge : Contract := ⟨[("age", { dtype := "int" })], "contract"⟩

/-- `Contract(columns={"height": ColumnRule(dtype="int")})`. -/
def exContractHeight : Contract := ⟨[("height", { dtype := "int" })], "contract"⟩

/-- The drift report comparing `exContractAge` to `exContractHeight`. -/
def exReportAddRemove : DriftReport :=
  { added_columns := {"height"}, removed_columns := {"age"} }

/-- Baseline for the dtype-suppression witness: an int column with
bounds. -/
def exC4a : Contract :=
  ⟨[("age", { dtype := "int", min_value := some 0, max_value := some 1 })], "contract"⟩

/-- Observed side for the dtype-suppression witness: dtype and bounds both
changed. -/
def exC4b : Contract :=
  ⟨[("age", { dtype := "float", min_value := some 0, max_value := some 2 })], "contract"⟩

/-- The report for `exC4a` vs `exC4b`: the dtype change suppresses the
range comparison. -/
def exC4r : DriftReport := { dtype_changes := [("age", "int", "float")] }

/-- Baseline rule for the missingness witness. -/
def exC5ra : ColumnRule := { dtype := "int", max_missing_frac := mkRat 1 20 }

/-- Observed rule for the missingness witness: dtype and missingness both
changed. -/
def exC5rb : ColumnRule := { dtype := "float", max_missing_frac := mkRat 1 10 }

/-- Baseline contract for the missingness witness. -/
def exC5a : Contract := ⟨[("x", exC5ra)], "contract"⟩

/-- Observed contract for the missingness witness. -/
def exC5b : Contract := ⟨[("x", exC5rb)], "contract"⟩

/-- The report for `exC5a` vs `exC5b`: the missingness change is recorded
although the dtype changed too. -/
def exC5r : DriftReport :=
  { dtype_changes := [("x", "int", "float")]
    missingness_changes := [("x", mkRat 1 20, mkRat 1 10)] }

/-- A validation result with two issues of equal default weight (range and
category both weigh 5), one without a column. -/
def exResult6 : ValidationResult :=
  ⟨false, [{ kind := "range", message := "r", column := some "age" },
           { kind := "category", message := "c", column := none }]⟩

/-- A DataFrame with columns `a` and `b` for the strict-mode witness. -/
def exDF7 : DataFrame :=
  ⟨[("a", ⟨"int64", [some (.num 1)]⟩), ("b", ⟨"int64", [some (.num 2)]⟩)]⟩

/-- A contract with columns `a` and `c` for the strict-mode witness:
`b` is extra in the data, `c` is missing from it. -/
def exContract7 : Contract :=
  ⟨[("a", { dtype := "int64", min_value := some 1, max_value := some 1 }),
    ("c", { dtype := "int64" })], "contract"⟩

/-- A contract whose single rule violates the `max_missing_frac ∈ [0, 1]`
precondition of `compare_contracts`. -/
def exBadContract : Contract :=
  ⟨[("x", { dtype := "int", max_missing_frac := 2 })], "c"⟩

/-! ## Claim theorems -/

/-- C2: for every pair of contracts A and B, the DriftReport returned by
`compare_contracts(A, B)` carries the six fields `added_columns`,
`removed_columns`, `dtype_changes`, `range_changes`, `category_changes`
and `missingness_changes` (the fields of `DriftReport`), and its derived
boolean `has_drift` is true iff at least one of the six is non-empty. -/
theorem claim_C2_has_drift_iff_nonempty (a b : PyObj) (r : DriftReport)
    (h : compare_contracts a b = .ok r) :
    r.has_drift = true ↔
      (r.added_columns ≠ ∅ ∨ r.removed_columns ≠ ∅ ∨ r.dtype_changes ≠ []
        ∨ r.range_changes ≠ ∅ ∨ r.category_changes ≠ ∅
        ∨ r.missingness_changes ≠ []) := by
  simp only [DriftReport.has_drift, Bool.or_eq_true, decide_eq_true_eq,
    Bool.not_eq_true', List.isEmpty_eq_false, ne_eq]
  tauto

/-- Witness for C2 at the concrete contract pair {age} vs {height}. -/
theorem claim_C2_has_drift_iff_nonempty_witness :
    compare_contracts (.contract exContractAge) (.contract exContractHeight)
        = .ok exReportAddRemove
    ∧ (exReportAddRemove.has_drift = true ↔
        (exReportAddRemove.added_columns ≠ ∅
          ∨ exReportAddRemove.removed_columns ≠ ∅
          ∨ exReportAddRemove.dtype_changes ≠ []
          ∨ exReportAddRemove.range_changes ≠ ∅
          ∨ exReportAddRemove.category_changes ≠ ∅
          ∨ exReportAddRemove.missingness_changes ≠ [])) :=
  ⟨by decide,
   claim_C2_has_drift_iff_nonempty (.contract exContractAge)
     (.contract exContractHeight) exReportAddRemove (by decide)⟩

/-- C3 (code_bug evidence): on the DataFrame `{"flag": [True, False,
True]}` both copies of `infer_contract` give the boolean column numeric
bounds *and* an allowed-values set — pandas counts the bool dtype as
numeric, so the column takes both branches, contradicting the claim that
a rule never carries both. -/
theorem claim_C3_bool_rule_gets_bounds_and_allowed :
    ((dictGet? (infer_contract exBoolDF).columns "flag").map
        (fun r => (r.min_value, r.max_value, r.allowed_values.isSome))
      = some (some 0, some 1, true))
    ∧ ((dictGet? (pyos_infer_contract exBoolDF).columns "flag").map
        (fun r => (r.min_value, r.max_value, r.allowed_values.isSome))
      = some (some 0, some 1, true))
    ∧ (((dictGet? (infer_contract exBoolDF).columns "flag").bind
          (fun r => r.allowed_values)).map
        (fun s => (decide ("True" ∈ s), decide ("False" ∈ s), s.card))
      = some (true, true, 2)) := by
  refine ⟨by decide, by decide, by decide⟩

/-- C8: `compare_contracts` never reads the `name` field — reports on
contracts with equal column maps and arbitrarily different names are
equal. -/
theorem claim_C8_name_noninterference (colsA colsB : List (String × ColumnRule))
    (nameA nameB nameA2 nameB2 : String) :
    compare_contracts (.contract ⟨colsA, nameA⟩) (.contract ⟨colsB, nameB⟩)
      = compare_contracts (.contract ⟨colsA, nameA2⟩) (.contract ⟨colsB, nameB2⟩) := rfl

/-- C9: `summarize_violations` validates `top_k` and the weights map
before the empty-issue short-circuit — on a result with no issues, a
non-integer `top_k` still raises TypeError, a non-positive `top_k` still
raises ValueError, and an invalid weights entry still raises its error,
instead of the empty Summary being returned. -/
theorem claim_C9_validation_precedes_empty_shortcut (result : ValidationResult)
    (h : result.issues = []) :
    (∀ (tk : PyVal) (w : Option (List (String × PyVal))), tk.isInt = false →
        summarize_violations result tk w
          = .error (.typeError "top_k must be an integer"))
    ∧ (∀ (k : Int) (w : Option (List (String × PyVal))), k ≤ 0 →
        summarize_violations result (.int k) w
          = .error (.valueError "top_k must be a positive integer"))
    ∧ (∀ (k : Int) (ws : List (String × PyVal)) (e : PyError), 0 < k →
        checkWeights ws = .error e →
        summarize_violations result (.int k) (some ws) = .error e) := by
  refine ⟨?_, ?_, ?_⟩
  · intro tk w htk
    cases tk with
    | int i => simp [PyVal.isInt] at htk
    | float q => rfl
    | str s => rfl
  · intro k w hk
    simp [summarize_violations, hk]
  · intro k ws e hk hw
    simp [summarize_violations, not_le.mpr hk, hw]

/-- Witness for C9 on the empty result `ValidationResult(ok=True,
issues=[])` with a string top_k, a zero top_k and a non-numeric weight. -/
theorem claim_C9_validation_precedes_empty_shortcut_witness :
    summarize_violations ⟨true, []⟩ (.str "five") none
        = .error (.typeError "top_k must be an integer")
    ∧ summarize_violations ⟨true, []⟩ (.int 0) none
        = .error (.valueError "top_k must be a positive integer")
    ∧ summarize_violations ⟨true, []⟩ (.int 3) (some [("dtype", .str "high")])
        = .error (.valueError "Weight for dtype must be numeric") :=
  ⟨(claim_C9_validation_precedes_empty_shortcut ⟨true, []⟩ rfl).1
      (.str "five") none rfl,
   (claim_C9_validation_precedes_empty_shortcut ⟨true, []⟩ rfl).2.1
      0 none (by decide),
   (claim_C9_validation_precedes_empty_shortcut ⟨true, []⟩ rfl).2.2
      3 [("dtype", .str "high")] (.valueError "Weight for dtype must be numeric")
      (by decide) (by decide)⟩

/-- C10: `compare_contracts` raises TypeError whenever either argument is
not a Contract instance, and that check precedes every per-rule
validation and comparison — the TypeError is returned no matter what the
other argument contains. -/
theorem claim_C10_isinstance_guard_first (a b : PyObj)
    (h : a.isContract = false ∨ b.isContract = false) :
    compare_contracts a b
      = .error (.typeError "contract_a and contract_b must be Contract instances") := by
  cases a with
  | contract ca =>
      cases b with
      | contract cb => simp [PyObj.isContract] at h
      | notContract s => rfl
  | notContract s => cases b <;> rfl

/-- Witness for C10: a non-Contract first argument paired with a contract
whose rule would fail per-rule validation — the TypeError wins, so the
guard runs first. -/
theorem claim_C10_isinstance_guard_first_witness :
    (PyObj.notContract "a pandas DataFrame").isContract = false
    ∧ compare_contracts (.notContract "a pandas DataFrame") (.contract exBadContract)
        = .error (.typeError "contract_a and contract_b must be Contract instances") :=
  ⟨by decide,
   claim_C10_isinstance_guard_first (.notContract "a pandas DataFrame")
     (.contract exBadContract) (Or.inl (by decide))⟩

/-! ## Helper lemmas for the comparison claims -/

/-- `mkRat` in `Column.missingFrac` is exactly the quotient
missing count / row count (with the 0-denominator convention 0). -/
theorem missingFrac_eq_div (c : Column) :
    c.missingFrac = ((c.values.countP (fun v => v.isNone) : Rat)
      / (c.values.length : Rat)) := by
  rw [Column.missingFrac, Rat.mkRat_eq_div, Int.cast_natCast]

theorem compare_ok_eq_driftDiff (a b : Contract) (r : DriftReport)
    (h : compare_contracts (.contract a) (.contract b) = .ok r) :
    r = driftDiff a b := by
  have h2 : Except.bind (compare_validate_rules a.columns) (fun _ =>
      Except.bind (compare_validate_rules b.columns) (fun _ =>
        Except.ok (driftDiff a b))) = Except.ok r := h
  cases ha : compare_validate_rules a.columns with
  | error e => rw [ha] at h2; simp [Except.bind] at h2
  | ok u =>
      cases hb : compare_validate_rules b.columns with
      | error e =>
          rw [ha, hb] at h2
          simp [Except.bind] at h2
      | ok v =>
          rw [ha, hb] at h2
          simp [Except.bind] at h2
          exact h2.symm

theorem driftDiff_dtype_changes_eq (a b : Contract) :
    (driftDiff a b).dtype_changes = (commonColumns a b).filterMap (fun column =>
      match dictGet? a.columns column, dictGet? b.columns column with
      | some rule_a, some rule_b =>
          if rule_a.dtype ≠ rule_b.dtype then
            some (column, rule_a.dtype, rule_b.dtype)
          else none
      | _, _ => none) := rfl

theorem driftDiff_range_changes_eq (a b : Contract) :
    (driftDiff a b).range_changes = ((commonColumns a b).filter (fun column =>
      match dictGet? a.columns column, dictGet? b.columns column with
      | some rule_a, some rule_b =>
          rule_a.dtype == rule_b.dtype
            && (decide (rule_a.min_value ≠ rule_b.min_value)
                || decide (rule_a.max_value ≠ rule_b.max_value))
      | _, _ => false)).toFinset := rfl

theorem driftDiff_category_changes_eq (a b : Contract) :
    (driftDiff a b).category_changes = ((commonColumns a b).filter (fun column =>
      match dictGet? a.columns column, dictGet? b.columns column with
      | some rule_a, some rule_b =>
          rule_a.dtype == rule_b.dtype
            && decide (rule_a.allowed_values ≠ rule_b.allowed_values)
      | _, _ => false)).toFinset := rfl

theorem driftDiff_missingness_changes_eq (a b : Contract) :
    (driftDiff a b).missingness_changes = (commonColumns a b).filterMap (fun column =>
      match dictGet? a.columns column, dictGet? b.columns column with
      | some rule_a, some rule_b =>
          if rule_a.max_missing_frac ≠ rule_b.max_missing_frac then
            some (column, rule_a.max_missing_frac, rule_b.max_missing_frac)
          else none
      | _, _ => none) := rfl

theorem dictGet?_mem_keys {α : Type} (l : List (String × α)) (k : String) (v : α)
    (h : dictGet? l k = some v) : k ∈ l.map Prod.fst := by
  unfold dictGet? at h
  cases hf : l.find? (fun p => p.1 == k) with
  | none => rw [hf] at h; cases h
  | some pr =>
      have hmem := List.mem_of_find?_eq_some hf
      have hbeq := List.find?_some hf
      have : pr.1 = k := by simpa using hbeq
      exact this ▸ List.mem_map.mpr ⟨pr, hmem, rfl⟩

theorem find?_eq_of_mem_unique {α : Type} (l : List α) (p : α → Bool) (v : α)
    (hex : ∃ x ∈ l, p x = true) (huniq : ∀ x ∈ l, p x = true → x = v) :
    l.find? p = some v := by
  induction l with
  | nil => obtain ⟨x, hx, _⟩ := hex; cases hx
  | cons y t ih =>
      by_cases hy : p y = true
      · have hv : y = v := huniq y (List.mem_cons_self y t) hy
        subst hv
        exact List.find?_cons_of_pos t hy
      · rw [List.find?_cons_of_neg t (by simpa using hy)]
        apply ih
        · obtain ⟨x, hx, hpx⟩ := hex
          cases hx with
          | head => exact absurd hpx hy
          | tail _ hxt => exact ⟨x, hxt, hpx⟩
        · intro x hx hpx
          exact huniq x (List.mem_cons_of_mem y hx) hpx

theorem driftDiff_dtype_keys (a b : Contract) (X : String)
    (hX : X ∈ (driftDiff a b).dtype_changes.map Prod.fst) :
    ∃ ra rb, dictGet? a.columns X = some ra ∧ dictGet? b.columns X = some rb
      ∧ ra.dtype ≠ rb.dtype := by
  rw [driftDiff_dtype_changes_eq, List.mem_map] at hX
  obtain ⟨p, hp, hfst⟩ := hX
  rw [List.mem_filterMap] at hp
  obtain ⟨col, hcol, hf⟩ := hp
  cases hga : dictGet? a.columns col <;> cases hgb : dictGet? b.columns col <;>
    rw [hga, hgb] at hf
  case none.none => exact absurd hf (by simp)
  case none.some => exact absurd hf (by simp)
  case some.none => exact absurd hf (by simp)
  case some.some ra rb =>
    have hf2 : (if ra.dtype ≠ rb.dtype then some (col, ra.dtype, rb.dtype)
        else none) = some p := hf
    by_cases hd : ra.dtype = rb.dtype
    · rw [if_neg (not_not_intro hd)] at hf2
      cases hf2
    · rw [if_pos hd] at hf2
      obtain rfl : (col, ra.dtype, rb.dtype) = p := Option.some.inj hf2
      have hcolX : col = X := hfst
      subst hcolX
      exact ⟨ra, rb, hga, hgb, hd⟩

theorem driftDiff_range_mem (a b : Contract) (X : String)
    (hX : X ∈ (driftDiff a b).range_changes) :
    ∃ ra rb, dictGet? a.columns X = some ra ∧ dictGet? b.columns X = some rb
      ∧ ra.dtype = rb.dtype := by
  rw [driftDiff_range_changes_eq, List.mem_toFinset, List.mem_filter] at hX
  obtain ⟨hmem, hpred⟩ := hX
  cases hga : dictGet? a.columns X <;> cases hgb : dictGet? b.columns X <;>
    rw [hga, hgb] at hpred
  case none.none => exact absurd hpred (by simp)
  case none.some => exact absurd hpred (by simp)
  case some.none => exact absurd hpred (by simp)
  case some.some ra rb =>
    have hp2 : (ra.dtype == rb.dtype
        && (decide (ra.min_value ≠ rb.min_value)
            || decide (ra.max_value ≠ rb.max_value))) = true := hpred
    have := (Bool.and_eq_true _ _).mp hp2
    exact ⟨ra, rb, rfl, rfl, by simpa using this.1⟩

theorem driftDiff_category_mem (a b : Contract) (X : String)
    (hX : X ∈ (driftDiff a b).category_changes) :
    ∃ ra rb, dictGet? a.columns X = some ra ∧ dictGet? b.columns X = some rb
      ∧ ra.dtype = rb.dtype := by
  rw [driftDiff_category_changes_eq, List.mem_toFinset, List.mem_filter] at hX
  obtain ⟨hmem, hpred⟩ := hX
  cases hga : dictGet? a.columns X <;> cases hgb : dictGet? b.columns X <;>
    rw [hga, hgb] at hpred
  case none.none => exact absurd hpred (by simp)
  case none.some => exact absurd hpred (by simp)
  case some.none => exact absurd hpred (by simp)
  case some.some ra rb =>
    have hp2 : (ra.dtype == rb.dtype
        && decide (ra.allowed_values ≠ rb.allowed_values)) = true := hpred
    have := (Bool.and_eq_true _ _).mp hp2
    exact ⟨ra, rb, rfl, rfl, by simpa using this.1⟩

theorem driftDiff_missingness_elem (a b : Contract) (p : String × Rat × Rat)
    (hp : p ∈ (driftDiff a b).missingness_changes) :
    ∃ ra rb, dictGet? a.columns p.1 = some ra ∧ dictGet? b.columns p.1 = some rb
      ∧ ra.max_missing_frac ≠ rb.max_missing_frac
      ∧ p = (p.1, ra.max_missing_frac, rb.max_missing_frac) := by
  rw [driftDiff_missingness_changes_eq, List.mem_filterMap] at hp
  obtain ⟨col, hcol, hf⟩ := hp
  cases hga : dictGet? a.columns col <;> cases hgb : dictGet? b.columns col <;>
    rw [hga, hgb] at hf
  case none.none => exact absurd hf (by simp)
  case none.some => exact absurd hf (by simp)
  case some.none => exact absurd hf (by simp)
  case some.some ra rb =>
    have hf2 : (if ra.max_missing_frac ≠ rb.max_missing_frac then
        some (col, ra.max_missing_frac, rb.max_missing_frac) else none)
        = some p := hf
    by_cases hd : ra.max_missing_frac = rb.max_missing_frac
    · rw [if_neg (not_not_intro hd)] at hf2
      cases hf2
    · rw [if_pos hd] at hf2
      obtain rfl : (col, ra.max_missing_frac, rb.max_missing_frac) = p :=
        Option.some.inj hf2
      exact ⟨ra, rb, hga, hgb, hd, rfl⟩

theorem driftDiff_missingness_lookup (a b : Contract) (X : String)
    (ra rb : ColumnRule)
    (ha : dictGet? a.columns X = some ra) (hb : dictGet? b.columns X = some rb) :
    dictGet? (driftDiff a b).missingness_changes X
      = if ra.max_missing_frac ≠ rb.max_missing_frac
        then some (ra.max_missing_frac, rb.max_missing_frac) else none := by
  by_cases hfr : ra.max_missing_frac = rb.max_missing_frac
  · rw [if_neg (not_not_intro hfr)]
    unfold dictGet?
    rw [(List.find?_eq_none).mpr ?_]
    · rfl
    · intro p hp hbeq
      obtain ⟨ra2, rb2, hga2, hgb2, hne2, hform⟩ :=
        driftDiff_missingness_elem a b p hp
      have hcolX : p.1 = X := by simpa using hbeq
      rw [hcolX] at hga2 hgb2
      rw [ha] at hga2
      rw [hb] at hgb2
      cases hga2; cases hgb2
      exact hne2 hfr
  · rw [if_pos hfr]
    have hmemA : X ∈ a.columns.map Prod.fst := dictGet?_mem_keys _ _ _ ha
    have hmemB : X ∈ b.columns.map Prod.fst := dictGet?_mem_keys _ _ _ hb
    have hcommon : X ∈ commonColumns a b := by
      rw [commonColumns, List.mem_filter]
      exact ⟨hmemA, List.elem_iff.mpr hmemB⟩
    have hfX : (match dictGet? a.columns X, dictGet? b.columns X with
        | some rule_a, some rule_b =>
            if rule_a.max_missing_frac ≠ rule_b.max_missing_frac then
              some (X, rule_a.max_missing_frac, rule_b.max_missing_frac)
            else none
        | _, _ => none)
        = some (X, ra.max_missing_frac, rb.max_missing_frac) := by
      rw [ha, hb]
      exact if_pos hfr
    have hmemP : (X, ra.max_missing_frac, rb.max_missing_frac)
        ∈ (driftDiff a b).missingness_changes := by
      rw [driftDiff_missingness_changes_eq]
      exact List.mem_filterMap.mpr ⟨X, hcommon, hfX⟩
    unfold dictGet?
    rw [find?_eq_of_mem_unique _ _ (X, ra.max_missing_frac, rb.max_missing_frac)
      ⟨(X, ra.max_missing_frac, rb.max_missing_frac), hmemP, by simp⟩ ?_]
    · rfl
    · intro p hp hbeq
      obtain ⟨ra2, rb2, hga2, hgb2, hne2, hform⟩ :=
        driftDiff_missingness_elem a b p hp
      have hcolX : p.1 = X := by simpa using hbeq
      rw [hcolX] at hga2 hgb2 hform
      rw [ha] at hga2
      rw [hb] at hgb2
      cases hga2; cases hgb2
      exact hform

/-- C4: dtype suppression — whenever a column appears among the keys of
`dtype_changes` of a successful `compare_contracts` report, it belongs to
neither `range_changes` nor `category_changes` of that report. -/
theorem claim_C4_dtype_change_suppresses_range_category
    (a b : Contract) (r : DriftReport) (X : String)
    (h : compare_contracts (.contract a) (.contract b) = .ok r)
    (hX : X ∈ r.dtype_changes.map Prod.fst) :
    X ∉ r.range_changes ∧ X ∉ r.category_changes := by
  obtain rfl : r = driftDiff a b := compare_ok_eq_driftDiff a b r h
  obtain ⟨ra, rb, hga, hgb, hne⟩ := driftDiff_dtype_keys a b X hX
  constructor
  · intro hmem
    obtain ⟨ra2, rb2, hga2, hgb2, heq⟩ := driftDiff_range_mem a b X hmem
    rw [hga] at hga2
    rw [hgb] at hgb2
    cases hga2; cases hgb2
    exact hne heq
  · intro hmem
    obtain ⟨ra2, rb2, hga2, hgb2, heq⟩ := driftDiff_category_mem a b X hmem
    rw [hga] at hga2
    rw [hgb] at hgb2
    cases hga2; cases hgb2
    exact hne heq

/-- Witness for C4: comparing int bounds [0,1] to float bounds [0,2] for
the same column records the dtype change and keeps "age" out of both the
range and the category sets, bound change notwithstanding. -/
theorem claim_C4_dtype_change_suppresses_range_category_witness :
    compare_contracts (.contract exC4a) (.contract exC4b) = .ok exC4r
    ∧ "age" ∈ exC4r.dtype_changes.map Prod.fst
    ∧ ("age" ∉ exC4r.range_changes ∧ "age" ∉ exC4r.category_changes) :=
  ⟨by decide, by decide,
   claim_C4_dtype_change_suppresses_range_category exC4a exC4b exC4r "age"
     (by decide) (by decide)⟩

/-- C5: the missingness comparison is never suppressed — for every column
present in both contracts of a successful comparison, the report's
`missingness_changes` maps the column to the pair of `max_missing_frac`
values exactly when they differ, regardless of any dtype change. -/
theorem claim_C5_missingness_never_suppressed
    (a b : Contract) (r : DriftReport) (X : String) (ra rb : ColumnRule)
    (h : compare_contracts (.contract a) (.contract b) = .ok r)
    (ha : dictGet? a.columns X = some ra) (hb : dictGet? b.columns X = some rb) :
    dictGet? r.missingness_changes X
      = if ra.max_missing_frac ≠ rb.max_missing_frac
        then some (ra.max_missing_frac, rb.max_missing_frac) else none := by
  obtain rfl : r = driftDiff a b := compare_ok_eq_driftDiff a b r h
  exact driftDiff_missingness_lookup a b X ra rb ha hb

/-- Witness for C5: a column whose dtype *and* missingness both changed —
the missingness change is still recorded. -/
theorem claim_C5_missingness_never_suppressed_witness :
    compare_contracts (.contract exC5a) (.contract exC5b) = .ok exC5r
    ∧ dictGet? exC5a.columns "x" = some exC5ra
    ∧ dictGet? exC5b.columns "x" = some exC5rb
    ∧ dictGet? exC5r.missingness_changes "x"
        = (if exC5ra.max_missing_frac ≠ exC5rb.max_missing_frac
          then some (exC5ra.max_missing_frac, exC5rb.max_missing_frac) else none) :=
  ⟨by decide, by decide, by decide,
   claim_C5_missingness_never_suppressed exC5a exC5b exC5r "x" exC5ra exC5rb
     (by decide) (by decide) (by decide)⟩

/-! ## Helper lemmas for the summarization claims -/

theorem specResolvedWeight_eq_resolveWeight (w : List (String × PyVal)) :
    specResolvedWeight w = resolveWeight w := rfl

theorem specColumnKey_inj (a b : Option String)
    (h : specColumnKey a = specColumnKey b) : a = b := by
  cases a <;> cases b <;> simp_all [specColumnKey]

theorem columnKeyLt_eq_specColumnPairLt (a b : Option String) :
    columnKeyLt a b = specColumnPairLt (specColumnKey a) (specColumnKey b) := by
  cases a <;> cases b <;> simp [columnKeyLt, specColumnKey, specColumnPairLt]

theorem sortKeyLe_eq_specCompositeLe (w : List (String × PyVal)) :
    sortKeyLe w = specCompositeLe w := by
  funext i j
  simp only [sortKeyLe, specCompositeLe, specResolvedWeight_eq_resolveWeight]
  by_cases hww : resolveWeight w i.kind = resolveWeight w j.kind
  · rw [if_neg (c := resolveWeight w i.kind ≠ resolveWeight w j.kind)
        (not_not_intro hww),
      if_neg (c := -resolveWeight w i.kind ≠ -resolveWeight w j.kind)
        (not_not_intro (by rw [hww]))]
    by_cases hc : i.column = j.column
    · rw [if_neg (c := i.column ≠ j.column) (not_not_intro hc),
        if_neg (c := specColumnKey i.column ≠ specColumnKey j.column)
          (not_not_intro (by rw [hc]))]
    · rw [if_pos (c := i.column ≠ j.column) hc,
        if_pos (c := specColumnKey i.column ≠ specColumnKey j.column)
          (fun hkey => hc (specColumnKey_inj _ _ hkey)),
        columnKeyLt_eq_specColumnPairLt]
  · rw [if_pos (c := resolveWeight w i.kind ≠ resolveWeight w j.kind) hww,
      if_pos (c := -resolveWeight w i.kind ≠ -resolveWeight w j.kind)
        (fun hcon => hww (neg_inj.mp hcon))]
    exact decide_eq_decide.mpr neg_lt_neg_iff.symm

theorem summarizeCore_top_issues (result : ValidationResult) (k : Int)
    (w : Option (List (String × PyVal))) (hne : result.issues ≠ []) :
    (summarizeCore result k w).top_issues
      = (result.issues.mergeSort (sortKeyLe (w.getD DEFAULT_WEIGHTS))).take k.toNat := by
  simp only [summarizeCore]
  rw [if_neg (by simpa [List.isEmpty_iff] using hne)]

theorem mergeSort_take_min {α : Type} (l : List α) (le : α → α → Bool) (n : Nat) :
    (l.mergeSort le).take (min n l.length) = (l.mergeSort le).take n := by
  rw [← @List.length_mergeSort _ le l, ← List.take_take, List.take_length]

/-- C6: with a non-empty issue list, a valid `top_k` and valid weights,
`summarize_violations` succeeds and its `top_issues` is exactly the first
min(top_k, number of issues) elements of the stable ascending sort of the
full issue list by the composite key of the claim (negative resolved
weight with default 1, then column with None first and defined columns
alphabetical, then kind alphabetical). -/
theorem claim_C6_top_issues_sorted_prefix (result : ValidationResult) (k : Int)
    (w : Option (List (String × PyVal)))
    (hk : 0 < k) (hw : weightsValid w) (hne : result.issues ≠ []) :
    ∃ s, summarize_violations result (.int k) w = .ok s
      ∧ s.top_issues = (result.issues.mergeSort
          (specCompositeLe (w.getD DEFAULT_WEIGHTS))).take
          (min k.toNat result.issues.length) := by
  have hk2 : ¬ k ≤ 0 := not_le.mpr hk
  have hcore : summarize_violations result (.int k) w
      = .ok (summarizeCore result k w) := by
    cases w with
    | none => simp [summarize_violations, hk2]
    | some ws =>
        have hws : checkWeights ws = .ok () := hw
        simp [summarize_violations, hk2, hws]
  refine ⟨summarizeCore result k w, hcore, ?_⟩
  rw [summarizeCore_top_issues result k w hne, sortKeyLe_eq_specCompositeLe,
    mergeSort_take_min]

/-- Witness for C6: two issues of equal weight, `top_k = 5`, default
weights. -/
theorem claim_C6_top_issues_sorted_prefix_witness :
    (0 : Int) < 5 ∧ exResult6.issues ≠ []
    ∧ ∃ s, summarize_violations exResult6 (.int 5) none = .ok s
      ∧ s.top_issues = (exResult6.issues.mergeSort
          (specCompositeLe ((none : Option (List (String × PyVal))).getD
            DEFAULT_WEIGHTS))).take
          (min (5 : Int).toNat exResult6.issues.length) :=
  ⟨by decide, by decide,
   claim_C6_top_issues_sorted_prefix exResult6 5 none (by decide) trivial
     (by decide)⟩

/-! ## Helper lemmas for the validation claims -/

theorem not_contains_iff (l : List String) (c : String) :
    ((!(l.contains c)) = true) ↔ c ∉ l := by
  rw [Bool.not_eq_true']
  constructor
  · intro h hmem
    have h2 : l.contains c = true := List.elem_iff.mpr hmem
    rw [h] at h2
    cases h2
  · intro h
    cases hcb : l.contains c with
    | false => rfl
    | true => exact absurd (List.elem_iff.mp hcb) h

theorem validate_contract_issues (df : DataFrame) (contract : Contract)
    (strict : Bool) :
    (validate_contract df contract strict).issues
      = missingColumnIssues df contract
        ++ (if strict then extraColumnIssues df contract else [])
        ++ perColumnIssues df contract := rfl

theorem checkColumn_kinds (col : String) (r : ColumnRule) (s : Column) :
    ∀ i ∈ checkColumn col r s,
      i.kind = "dtype" ∨ i.kind = "missingness" ∨ i.kind = "range"
        ∨ i.kind = "category" := by
  intro i hi
  unfold checkColumn at hi
  simp only [List.mem_append] at hi
  rcases hi with ((h | h) | h) | h
  · split at h
    · cases h
    · split at h
      · rw [List.mem_singleton] at h
        subst h
        exact Or.inl rfl
      · cases h
  · split at h
    · rw [List.mem_singleton] at h
      subst h
      exact Or.inr (Or.inl rfl)
    · cases h
  · split at h
    · rw [List.mem_append] at h
      rcases h with h | h <;> split at h
      any_goals cases h
      · split at h
        · rw [List.mem_singleton] at h
          subst h
          exact Or.inr (Or.inr (Or.inl rfl))
        · cases h
      · split at h
        · rw [List.mem_singleton] at h
          subst h
          exact Or.inr (Or.inr (Or.inl rfl))
        · cases h
    · cases h
  · split at h
    · split at h
      · rw [List.mem_singleton] at h
        subst h
        exact Or.inr (Or.inr (Or.inr rfl))
      · cases h
    · cases h

theorem countP_perColumnIssues_zero (df : DataFrame) (contract : Contract)
    (p : Issue → Bool)
    (hp : ∀ i, (i.kind = "dtype" ∨ i.kind = "missingness" ∨ i.kind = "range"
      ∨ i.kind = "category") → p i = false) :
    (perColumnIssues df contract).countP p = 0 := by
  rw [List.countP_eq_zero]
  intro i hi
  rw [perColumnIssues, List.mem_flatMap] at hi
  obtain ⟨q, hq, hiq⟩ := hi
  cases hf : df.cols.find? (fun r => r.1 == q.1) with
  | none => rw [hf] at hiq; cases hiq
  | some qq =>
      rw [hf] at hiq
      have hk := checkColumn_kinds q.1 q.2 qq.2 i hiq
      simp [hp i hk]

theorem count_filter_nodup (l : List String) (q : String → Bool) (c : String)
    (h : l.Nodup) :
    List.count c (l.filter q) = if c ∈ l ∧ q c = true then 1 else 0 := by
  by_cases hm : c ∈ l ∧ q c = true
  · rw [if_pos hm]
    exact List.count_eq_one_of_mem (List.Nodup.filter q h)
      (List.mem_filter.mpr ⟨hm.1, hm.2⟩)
  · rw [if_neg hm]
    apply List.count_eq_zero_of_not_mem
    intro hmem
    exact hm (List.mem_filter.mp hmem)

/-- C7: strict-mode behaviour of validation — for any DataFrame and
Contract (with well-formed, duplicate-free column names), a dataset
column absent from the contract yields exactly one `extra_column` issue
when `strict` and none otherwise, while a contract column absent from the
dataset yields exactly one `missing_column` issue regardless of
`strict`. -/
theorem claim_C7_strict_mode_presence_counts (df : DataFrame)
    (contract : Contract) (strict : Bool) (c : String)
    (hdf : (df.cols.map Prod.fst).Nodup)
    (hc : (contract.columns.map Prod.fst).Nodup) :
    ((validate_contract df contract strict).issues.countP
        (fun i => i.kind == "extra_column" && i.column == some c)
      = if strict = true ∧ c ∈ df.cols.map Prod.fst
            ∧ c ∉ contract.columns.map Prod.fst then 1 else 0)
    ∧ ((validate_contract df contract strict).issues.countP
        (fun i => i.kind == "missing_column" && i.column == some c)
      = if c ∈ contract.columns.map Prod.fst
            ∧ c ∉ df.cols.map Prod.fst then 1 else 0) := by
  rw [validate_contract_issues]
  constructor
  · rw [List.countP_append, List.countP_append,
      countP_perColumnIssues_zero _ _ _
        (by intro i hk; rcases hk with h|h|h|h <;> simp [h]),
      missingColumnIssues, List.countP_map]
    have hmz : List.countP
        ((fun i => i.kind == "extra_column" && i.column == some c) ∘ (fun col =>
          ({ kind := "missing_column"
             message := s!"Missing required column: {col}"
             column := some col
             expected := .str "Present"
             observed := .str "Missing" } : Issue)))
        (List.filter (fun x => !(df.cols.map Prod.fst).contains x)
          (contract.columns.map Prod.fst)) = 0 := by
      apply List.countP_eq_zero.mpr
      intro a ha
      exact fun hcon => Bool.false_ne_true hcon
    rw [hmz]
    cases strict with
    | false =>
        have hns : ¬ (false = true ∧ c ∈ df.cols.map Prod.fst
            ∧ c ∉ contract.columns.map Prod.fst) := by
          intro hcon
          cases hcon.1
        rw [if_neg hns]
        rfl
    | true =>
        rw [if_pos rfl]
        rw [extraColumnIssues, List.countP_map]
        have hcnt : List.countP
            ((fun i => i.kind == "extra_column" && i.column == some c) ∘ (fun col =>
              ({ kind := "extra_column"
                 message := s!"Unexpected extra column: {col}"
                 column := some col
                 expected := .str "Absent"
                 observed := .str "Present" } : Issue)))
            (List.filter (fun x => !(contract.columns.map Prod.fst).contains x)
              (df.cols.map Prod.fst))
            = List.count c (List.filter
                (fun x => !(contract.columns.map Prod.fst).contains x)
                (df.cols.map Prod.fst)) := by
          rw [List.count_eq_countP]
          apply List.countP_congr
          intro a ha
          rfl
        rw [hcnt, count_filter_nodup _ _ _ hdf]
        by_cases hmem : c ∈ df.cols.map Prod.fst
            ∧ c ∉ contract.columns.map Prod.fst
        · have hx : c ∈ df.cols.map Prod.fst
              ∧ (!(contract.columns.map Prod.fst).contains c) = true :=
            ⟨hmem.1, (not_contains_iff _ _).mpr hmem.2⟩
          have hy : true = true ∧ c ∈ df.cols.map Prod.fst
              ∧ c ∉ contract.columns.map Prod.fst := ⟨rfl, hmem.1, hmem.2⟩
          rw [if_pos hx, if_pos hy]
        · have hx : ¬ (c ∈ df.cols.map Prod.fst
              ∧ (!(contract.columns.map Prod.fst).contains c) = true) :=
            fun hcon => hmem ⟨hcon.1, (not_contains_iff _ _).mp hcon.2⟩
          have hy : ¬ (true = true ∧ c ∈ df.cols.map Prod.fst
              ∧ c ∉ contract.columns.map Prod.fst) :=
            fun hcon => hmem ⟨hcon.2.1, hcon.2.2⟩
          rw [if_neg hx, if_neg hy]
  · rw [List.countP_append, List.countP_append,
      countP_perColumnIssues_zero _ _ _
        (by intro i hk; rcases hk with h|h|h|h <;> simp [h])]
    have hez : List.countP
        (fun i => i.kind == "missing_column" && i.column == some c)
        (if strict then extraColumnIssues df contract else []) = 0 := by
      cases strict with
      | false => rfl
      | true =>
          rw [if_pos rfl, extraColumnIssues, List.countP_map]
          apply List.countP_eq_zero.mpr
          intro a ha
          exact fun hcon => Bool.false_ne_true hcon
    rw [hez, missingColumnIssues, List.countP_map]
    have hcnt : List.countP
        ((fun i => i.kind == "missing_column" && i.column == some c) ∘ (fun col =>
          ({ kind := "missing_column"
             message := s!"Missing required column: {col}"
             column := some col
             expected := .str "Present"
             observed := .str "Missing" } : Issue)))
        (List.filter (fun x => !(df.cols.map Prod.fst).contains x)
          (contract.columns.map Prod.fst))
        = List.count c (List.filter
            (fun x => !(df.cols.map Prod.fst).contains x)
            (contract.columns.map Prod.fst)) := by
      rw [List.count_eq_countP]
      apply List.countP_congr
      intro a ha
      rfl
    rw [hcnt, count_filter_nodup _ _ _ hc]
    by_cases hmem : c ∈ contract.columns.map Prod.fst
        ∧ c ∉ df.cols.map Prod.fst
    · have hx : c ∈ contract.columns.map Prod.fst
          ∧ (!(df.cols.map Prod.fst).contains c) = true :=
        ⟨hmem.1, (not_contains_iff _ _).mpr hmem.2⟩
      rw [if_pos hx, if_pos hmem]
    · have hx : ¬ (c ∈ contract.columns.map Prod.fst
          ∧ (!(df.cols.map Prod.fst).contains c) = true) :=
        fun hcon => hmem ⟨hcon.1, (not_contains_iff _ _).mp hcon.2⟩
      rw [if_neg hx, if_neg hmem]

/-- Witness for C7: DataFrame columns {a, b} against contract columns
{a, c} — extra column "b", missing column "c". -/
theorem claim_C7_strict_mode_presence_counts_witness :
    (exDF7.cols.map Prod.fst).Nodup
    ∧ (exContract7.columns.map Prod.fst).Nodup
    ∧ ((validate_contract exDF7 exContract7 true).issues.countP
        (fun i => i.kind == "extra_column" && i.column == some "b")
      = if true = true ∧ "b" ∈ exDF7.cols.map Prod.fst
            ∧ "b" ∉ exContract7.columns.map Prod.fst then 1 else 0)
    ∧ ((validate_contract exDF7 exContract7 true).issues.countP
        (fun i => i.kind == "missing_column" && i.column == some "c")
      = if "c" ∈ exContract7.columns.map Prod.fst
            ∧ "c" ∉ exDF7.cols.map Prod.fst then 1 else 0) :=
  ⟨by decide, by decide,
   (claim_C7_strict_mode_presence_counts exDF7 exContract7 true "b"
     (by decide) (by decide)).1,
   (claim_C7_strict_mode_presence_counts exDF7 exContract7 true "c"
     (by decide) (by decide)).2⟩

/-! ## Helper lemmas and theorem for the round-trip claim -/
theorem inferRule_dtype (c : Column) : (inferRule c).dtype = c.dtype := rfl

theorem inferRule_mmf (c : Column) :
    (inferRule c).max_missing_frac = c.missingFrac := rfl

theorem inferRule_min (c : Column) :
    (inferRule c).min_value
      = if is_numeric_dtype c.dtype then
          (if c.notnaAny then c.colMin else none) else none := rfl

theorem inferRule_max (c : Column) :
    (inferRule c).max_value
      = if is_numeric_dtype c.dtype then
          (if c.notnaAny then c.colMax else none) else none := rfl

theorem inferRule_allowed (c : Column) :
    (inferRule c).allowed_values
      = if c.dtype == "object" || is_categorical_dtype c.dtype
          || is_bool_dtype c.dtype then
          some c.distinctStrs
        else none := rfl

theorem checkColumn_inferRule_self (n : String) (c : Column) :
    checkColumn n (inferRule c) c = [] := by
  simp only [checkColumn, inferRule_dtype, inferRule_mmf, inferRule_min,
    inferRule_max, inferRule_allowed]
  refine List.append_eq_nil.mpr ⟨List.append_eq_nil.mpr
    ⟨List.append_eq_nil.mpr ⟨?_, ?_⟩, ?_⟩, ?_⟩
  · split
    · rfl
    · rw [if_neg (c := c.dtype ≠ c.dtype) (not_not_intro rfl)]
  · rw [if_neg (c := c.missingFrac > c.missingFrac) (lt_irrefl _)]
  · split
    · next hnum =>
        by_cases hna : c.notnaAny = true
        · rw [if_pos hna, if_pos hna]
          refine List.append_eq_nil.mpr ⟨?_, ?_⟩
          · cases hmin : c.colMin with
            | none => rfl
            | some m => simp
          · cases hmax : c.colMax with
            | none => rfl
            | some m => simp
        · rw [if_neg hna, if_neg hna]
          cases hmin : c.colMin <;> cases hmax : c.colMax <;> rfl
    · rfl
  · by_cases hcat : (c.dtype == "object" || is_categorical_dtype c.dtype
        || is_bool_dtype c.dtype) = true
    · rw [if_pos hcat]
      have hsd : (c.distinctStrs \ c.distinctStrs) = ∅ := Finset.sdiff_self _
      simp [hsd]
    · rw [if_neg hcat]



theorem dictInsert_not_mem {α : Type} (d : List (String × α)) (k : String) (v : α)
    (h : k ∉ d.map Prod.fst) : dictInsert d k v = d ++ [(k, v)] := by
  induction d with
  | nil => rfl
  | cons hd t ih =>
      obtain ⟨k2, v2⟩ := hd
      rw [List.map_cons, List.mem_cons] at h
      push_neg at h
      show (if k2 = k then (k2, v) :: t else (k2, v2) :: dictInsert t k v)
        = (k2, v2) :: t ++ [(k, v)]
      rw [if_neg (fun hcon => h.1 (by rw [hcon]))]
      rw [ih h.2]
      rfl

theorem foldl_dictInsert_eq (f : Column → ColumnRule) :
    ∀ (cols : List (String × Column)) (acc : List (String × ColumnRule)),
      (cols.map Prod.fst).Nodup →
      (∀ k ∈ cols.map Prod.fst, k ∉ acc.map Prod.fst) →
      cols.foldl (fun d p => dictInsert d p.1 (f p.2)) acc
        = acc ++ cols.map (fun p => (p.1, f p.2))
  | [], acc, _, _ => by simp
  | p :: t, acc, hnd, hdisj => by
      rw [List.map_cons, List.nodup_cons] at hnd
      rw [List.foldl_cons,
        dictInsert_not_mem _ _ _ (hdisj p.1 (by simp)),
        foldl_dictInsert_eq f t (acc ++ [(p.1, f p.2)]) hnd.2 ?_,
        List.map_cons, List.append_assoc]
      · rfl
      · intro k hk hcon
        rw [List.map_append, List.mem_append] at hcon
        cases hcon with
        | inl hacc => exact hdisj k (List.mem_cons_of_mem _ hk) hacc
        | inr hsing =>
            have : k = p.1 := by simpa using hsing
            rw [this] at hk
            exact hnd.1 hk

theorem infer_contract_columns (df : DataFrame)
    (h : (df.cols.map Prod.fst).Nodup) :
    (infer_contract df).columns = df.cols.map (fun p => (p.1, inferRule p.2)) := by
  show df.cols.foldl (fun d p => dictInsert d p.1 (inferRule p.2)) [] = _
  rw [foldl_dictInsert_eq inferRule df.cols [] h (by intro k hk; simp)]
  rfl

theorem find?_key_nodup {α : Type} (l : List (String × α)) (n : String) (c : α)
    (hnd : (l.map Prod.fst).Nodup) (hmem : (n, c) ∈ l) :
    l.find? (fun q => q.1 == n) = some (n, c) := by
  induction l with
  | nil => cases hmem
  | cons hd t ih =>
      rw [List.map_cons, List.nodup_cons] at hnd
      cases hmem with
      | head => exact List.find?_cons_of_pos _ (by simp)
      | tail _ hmemt =>
          by_cases heq : hd.1 = n
          · exfalso
            apply hnd.1
            rw [heq]
            exact List.mem_map.mpr ⟨(n, c), hmemt, rfl⟩
          · rw [List.find?_cons_of_neg _ (by simpa using heq)]
            exact ih hnd.2 hmemt

/-- C1: round-trip — for every DataFrame (with pandas-well-formed, i.e.
duplicate-free, column names) and either strict setting, validating the
DataFrame against the contract inferred from it returns ok = true with an
empty issue list. -/
theorem claim_C1_validate_infer_roundtrip (df : DataFrame) (strict : Bool)
    (h : (df.cols.map Prod.fst).Nodup) :
    validate_contract df (infer_contract df) strict
      = { ok := true, issues := [] } := by
  have hcols := infer_contract_columns df h
  have hkeys : (infer_contract df).columns.map Prod.fst = df.cols.map Prod.fst := by
    rw [hcols, List.map_map]
    rfl
  have hfilter : List.filter (fun c => !(df.cols.map Prod.fst).contains c)
      (df.cols.map Prod.fst) = [] := by
    rw [List.filter_eq_nil_iff]
    intro a ha hcon
    exact (not_contains_iff _ _).mp hcon ha
  have hmiss : missingColumnIssues df (infer_contract df) = [] := by
    rw [missingColumnIssues, hkeys, hfilter]
    rfl
  have hextra : extraColumnIssues df (infer_contract df) = [] := by
    rw [extraColumnIssues, hkeys, hfilter]
    rfl
  have hper : perColumnIssues df (infer_contract df) = [] := by
    rw [perColumnIssues, hcols]
    rw [List.flatMap_eq_nil_iff]
    intro x hx
    rw [List.mem_map] at hx
    obtain ⟨p, hp, rfl⟩ := hx
    have hfind : df.cols.find? (fun q => q.1 == p.1) = some (p.1, p.2) :=
      find?_key_nodup df.cols p.1 p.2 h hp
    rw [hfind]
    exact checkColumn_inferRule_self p.1 p.2
  have hissues : (validate_contract df (infer_contract df) strict).issues = [] := by
    rw [validate_contract_issues, hmiss, hper]
    cases strict with
    | false => rfl
    | true => rw [if_pos rfl, hextra]; rfl
  have h2 : validate_contract df (infer_contract df) strict
      = { ok := ((validate_contract df (infer_contract df) strict).issues.length == 0),
          issues := (validate_contract df (infer_contract df) strict).issues } := rfl
  rw [h2, hissues]
  rfl

/-- Witness for C1 on a DataFrame with a numeric, an object (with one
missing cell) and a boolean column. -/
theorem claim_C1_validate_infer_roundtrip_witness :
    (exDF.cols.map Prod.fst).Nodup
    ∧ validate_contract exDF (infer_contract exDF) true
        = { ok := true, issues := [] } :=
  ⟨by decide, claim_C1_validate_infer_roundtrip exDF true (by decide)⟩

end DataValidation
